import Mathlib

/-!
Shallow embedding of `src/middleware/signed-eth-tx-middleware.ts`
(class `SignedEthTxMiddleware`) from the loom-js repository.

Bytes are modelled as `List Nat` (each element a byte value), JS strings as
`String`, and the external collaborators (the protobuf decoders, the
solidity hash, the ethers signer and recovery utilities) as explicitly
passed function records, since the repository treats them as external
libraries.  Fallible steps return `Except`.
-/

deriving instance DecidableEq for Except

namespace Loom

/-- Modelled from the spec: hex encoding of bytes (`bytesToHex` from
`crypto-utils`, which is not under `src/`).  One lowercase hex digit. -/
def hexDigit (n : Nat) : Char :=
  if n < 10 then Char.ofNat (48 + n) else Char.ofNat (87 + n)

/-- Modelled from the spec: hex encoding of a single byte, two lowercase
hex digits. -/
def byteToHex (b : Nat) : List Char :=
  [hexDigit (b / 16 % 16), hexDigit (b % 16)]

/-- Modelled from the spec: `bytesToHex` from `crypto-utils` (not under
`src/`): the hex encoding of a byte sequence, without a `0x` prefix. -/
def bytesToHex (bs : List Nat) : String :=
  String.mk (List.flatten (bs.map byteToHex))

/-- Modelled from the spec: numeric value of one hex digit character
(0 on a non-hex character). -/
def hexCharVal (c : Char) : Nat :=
  if 48 ≤ c.toNat ∧ c.toNat ≤ 57 then c.toNat - 48
  else if 97 ≤ c.toNat ∧ c.toNat ≤ 102 then c.toNat - 87
  else if 65 ≤ c.toNat ∧ c.toNat ≤ 70 then c.toNat - 55
  else 0

/-- Modelled from the spec: decode a list of hex digit characters into
bytes, two characters per byte. -/
def hexPairs : List Char → List Nat
  | a :: b :: rest => (hexCharVal a * 16 + hexCharVal b) :: hexPairs rest
  | _ => []

/-- Modelled from the spec: drop a leading `0x` from the characters of
a hex string. -/
def strip0x (s : String) : List Char :=
  match s.data with
  | '0' :: 'x' :: rest => rest
  | l => l

/-- Modelled from the spec: `hexToBytes` from `crypto-utils` (not under
`src/`): decode a hex string (with or without `0x` prefix) into bytes. -/
def hexToBytes (s : String) : List Nat :=
  hexPairs (strip0x s)

/-- Modelled from the spec: `ethers.utils.arrayify` applied to a hex
string: the byte sequence it denotes. -/
def arrayify (s : String) : List Nat :=
  hexToBytes s

/-- Protobuf `NonceTx` message (outer envelope): raw inner bytes and a
sequence counter. -/
structure NonceTx where
  inner : List Nat
  sequence : Nat
deriving DecidableEq

/-- Protobuf `Transaction` message (inner envelope): its data payload
bytes (other fields are ignored by the middleware). -/
structure Transaction where
  data : List Nat
deriving DecidableEq

/-- Protobuf `Address` message: chain id and local address bytes. -/
structure AddressPB where
  chainId : String
  localBytes : List Nat
deriving DecidableEq

/-- Protobuf `MessageTx` message (payload message): destination address
(possibly absent; named after the source accessor `getTo()`; other
fields are ignored by the middleware). -/
structure MessageTx where
  getTo : Option AddressPB
deriving DecidableEq

/-- Modelled from the spec: `LocalAddress` from `address.ts` (not under
`src/`): the local part of an address. -/
structure LocalAddress where
  bytes : List Nat
deriving DecidableEq

/-- Modelled from the spec: canonical textual/hex representation of a
local address (`LocalAddress.toString` from `address.ts`). -/
def LocalAddress.toString (a : LocalAddress) : String :=
  "0x" ++ bytesToHex a.bytes

/-- Modelled from the spec: `Address` from `address.ts` (not under
`src/`): a chain id together with a local address. -/
structure Address where
  chainId : String
  localAddr : LocalAddress
deriving DecidableEq

/-- Modelled from the spec: `Address.UnmarshalPB` from `address.ts` (not
under `src/`): converts the decoded protobuf address structure into an
`Address`. -/
def Address.UnmarshalPB (pb : AddressPB) : Address :=
  ⟨pb.chainId, ⟨pb.localBytes⟩⟩

/-- One element of the canonical hash input: an explicit solidity type
tag together with the value to hash (source lines 42–59). -/
structure HashValue where
  type : String
  value : String
deriving DecidableEq

/-- Protobuf `SignedTx` message: the final signed envelope.  Proto3
string fields default to `""`, so `chainName = ""` means the chain tag
is not set. -/
structure SignedTx where
  inner : List Nat
  signature : List Nat
  publicKey : List Nat
  chainName : String
deriving DecidableEq

/-- The external ethers signer capability: `getAddress` yields the
sender address, and `sign` is the composite behaviour of
`EthersSigner.signAsync` over this signer (modelled from the spec:
it returns a signature laid out as one recovery-id byte followed by the
64 `r‖s` bytes, and may fail). -/
structure Signer where
  getAddress : String
  sign : String → Except Unit (List Nat)

/-- The external collaborators used by the middleware: the three
protobuf layer decoders (`deserializeBinary`, returning `none` on
malformed bytes), the solidity structured hash, the ethers
personal-message hash, and ethers public-key recovery (which may fail on
a malformed signature). -/
structure Env where
  NonceTx_deserializeBinary : List Nat → Option NonceTx
  Transaction_deserializeBinary : List Nat → Option Transaction
  MessageTx_deserializeBinary : List Nat → Option MessageTx
  soliditySha3 : List HashValue → String
  hashMessage : List Nat → String
  recoverPublicKey : List Nat → String → Except Unit String

/-- The error taxonomy of a `Handle` call: decode failure at any of the
three layers (including a missing destination address), signer failure,
and public-key recovery failure. -/
inductive HandleError where
  | DecodeError
  | SigningError
  | RecoveryError
deriving DecidableEq

/-- The middleware instance state: the signer, the lazily cached sender
address (`fromAddress!`, `none` while still unassigned), and the
`applyEthChainName` flag. -/
structure SignedEthTxMiddleware where
  signer : Signer
  fromAddress : Option String
  applyEthChainName : Bool

/-- The constructor of `SignedEthTxMiddleware`: stores the signer and
the flag; `fromAddress` starts out unassigned. -/
def mkMiddleware (signer : Signer) (applyEthChainName : Bool) :
    SignedEthTxMiddleware :=
  ⟨signer, none, applyEthChainName⟩

/-- JavaScript truthiness of the `fromAddress` field: `undefined`
(`none`) and the empty string are falsy, every other string is truthy
(the guard `!this.fromAddress` on source line 71). -/
def truthy : Option String → Bool
  | none => false
  | some s => !(s == "")

/-- The sender address value used by a `Handle` call: the cached one
when the cache is truthy, otherwise the one fetched from the signer. -/
def effectiveFromAddress (mw : SignedEthTxMiddleware) : String :=
  if truthy mw.fromAddress then mw.fromAddress.getD "" else mw.signer.getAddress

/-- `getHashedValues` (source lines 31–68): decode the three nested
layers, extract destination address and sequence, build the typed
4-tuple of hash values, and hash it with `soliditySha3`.  A decode
failure at any layer (or a missing destination address) is a
`DecodeError`. -/
def getHashedValues (env : Env) (fromAddress : String) (txData : List Nat) :
    Except HandleError String :=
  match env.NonceTx_deserializeBinary txData with
  | none => .error .DecodeError
  | some nonce =>
    match env.Transaction_deserializeBinary nonce.inner with
    | none => .error .DecodeError
    | some transaction =>
      match env.MessageTx_deserializeBinary transaction.data with
      | none => .error .DecodeError
      | some message =>
        match message.getTo with
        | none => .error .DecodeError
        | some pb =>
          let toAddress := (Address.UnmarshalPB pb).localAddr.toString
          let sequence := toString nonce.sequence
          let hashValues : List HashValue :=
            [ ⟨"address", fromAddress⟩,
              ⟨"address", toAddress⟩,
              ⟨"uint64", sequence⟩,
              ⟨"bytes", bytesToHex txData⟩ ]
          .ok (env.soliditySha3 hashValues)

/-- The body of `Handle` after the sender-address caching step (source
lines 77–102): hash, sign, recover the public key, and build the
`SignedTx`.  Also returns how many times `sign` and `recoverPublicKey`
were invoked. -/
def handleCore (env : Env) (signer : Signer) (applyEthChainName : Bool)
    (fromAddress : String) (txData : List Nat) :
    Except HandleError SignedTx × Nat × Nat :=
  match getHashedValues env fromAddress txData with
  | .error e => (.error e, 0, 0)
  | .ok hash =>
    match signer.sign hash with
    | .error _ => (.error .SigningError, 1, 0)
    | .ok sig =>
      match env.recoverPublicKey
          (arrayify (env.hashMessage (arrayify hash)))
          ("0x" ++ bytesToHex (List.drop 1 sig)) with
      | .error _ => (.error .RecoveryError, 1, 1)
      | .ok publicKey =>
        (.ok ⟨txData, sig, hexToBytes publicKey,
              if applyEthChainName then "eth" else ""⟩, 1, 1)

/-- The outcome of one `Handle` call: the result (a `SignedTx` before
the final external protobuf serialization, or an error), the updated
middleware state, and how many times the signer's `getAddress`, `sign`
and `recoverPublicKey` capabilities were invoked during the call. -/
structure HandleOut where
  result : Except HandleError SignedTx
  state : SignedEthTxMiddleware
  getAddressCalls : Nat
  signCalls : Nat
  recoverCalls : Nat

/-- `Handle` (source lines 70–103): fetch and cache the sender address
when the cache is falsy, then run the hash/sign/recover/build pipeline.
The cache assignment on line 73 happens before `getHashedValues` is
called, so the updated state is returned even when the pipeline
fails. -/
def Handle (env : Env) (mw : SignedEthTxMiddleware) (txData : List Nat) :
    HandleOut :=
  let mw' : SignedEthTxMiddleware :=
    if truthy mw.fromAddress then mw
    else { mw with fromAddress := some mw.signer.getAddress }
  let ga : Nat := if truthy mw.fromAddress then 0 else 1
  let core := handleCore env mw.signer mw.applyEthChainName
      (effectiveFromAddress mw) txData
  ⟨core.1, mw', ga, core.2.1, core.2.2⟩

/-- A sequence of `Handle` calls on the same middleware instance:
returns the final state and the total number of `getAddress`
invocations across the sequence. -/
def HandleSeq (env : Env) (mw : SignedEthTxMiddleware) :
    List (List Nat) → SignedEthTxMiddleware × Nat
  | [] => (mw, 0)
  | txData :: rest =>
    let o := Handle env mw txData
    let r := HandleSeq env o.state rest
    (r.1, o.getAddressCalls + r.2)

/-!  Concrete test fixtures used by the witness theorems below. -/

/-- A test signer with a non-empty address and a fixed 3-byte signature
(one recovery-id byte followed by the rest). -/
def signer0 : Signer :=
  ⟨"0xA", fun _ => .ok [27, 1, 2]⟩

/-- A test signer whose `getAddress` resolves to the empty string. -/
def signerE : Signer :=
  ⟨"", fun _ => .ok [27, 1, 2]⟩

/-- A test outer envelope: inner bytes `[1]`, sequence `7`. -/
def nonce0 : NonceTx := ⟨[1], 7⟩

/-- A test inner envelope with data payload `[2]`. -/
def transaction0 : Transaction := ⟨[2]⟩

/-- A test protobuf address with local bytes `[170]` (hex `aa`). -/
def pb0 : AddressPB := ⟨"eth", [170]⟩

/-- A test payload message whose destination address is `pb0`. -/
def message0 : MessageTx := ⟨some pb0⟩

/-- A test environment: the byte sequence `[0]` decodes through all
three layers (`[0] → nonce0`, `[1] → transaction0`, `[2] → message0`),
everything else fails to decode; the hash and recovery collaborators
return fixed values. -/
def env0 : Env where
  NonceTx_deserializeBinary := fun bs => if bs = [0] then some nonce0 else none
  Transaction_deserializeBinary := fun bs => if bs = [1] then some transaction0 else none
  MessageTx_deserializeBinary := fun bs => if bs = [2] then some message0 else none
  soliditySha3 := fun _ => "0xff"
  hashMessage := fun _ => "0x01"
  recoverPublicKey := fun _ _ => .ok "0x04"

/-!  An injective stand-in for the external structured hash, used to
instantiate the field-order-sensitivity theorem: it encodes each string
length-prefixed in unary, so distinct hash-input tuples get distinct
outputs. -/

/-- Length-prefixed encoding of a string: `length` in unary, a marker,
then the characters. -/
def encStr (s : String) : List Char :=
  List.replicate s.length 'a' ++ 'b' :: s.data

/-- Encoding of one hash value: its type tag then its value. -/
def encHV (h : HashValue) : List Char :=
  encStr h.type ++ encStr h.value

/-- Encoding of a list of hash values. -/
def encList : List HashValue → List Char
  | [] => []
  | h :: t => encHV h ++ encList t

/-- An injective `List HashValue → String` function, usable as a
collision-free instantiation of the external `soliditySha3`. -/
def solidityEnc (l : List HashValue) : String :=
  String.mk (encList l)

/-- The fixture environment with the collision-free encoding in place of
the external structured hash. -/
def envInj : Env := { env0 with soliditySha3 := solidityEnc }

/-!  Helper lemmas about `Handle` and `getHashedValues`. -/

lemma Handle_result (env : Env) (mw : SignedEthTxMiddleware) (txData : List Nat) :
    (Handle env mw txData).result =
      (handleCore env mw.signer mw.applyEthChainName (effectiveFromAddress mw) txData).1 := rfl

lemma Handle_state (env : Env) (mw : SignedEthTxMiddleware) (txData : List Nat) :
    (Handle env mw txData).state =
      if truthy mw.fromAddress then mw
      else { mw with fromAddress := some mw.signer.getAddress } := rfl

lemma Handle_getAddressCalls (env : Env) (mw : SignedEthTxMiddleware) (txData : List Nat) :
    (Handle env mw txData).getAddressCalls =
      if truthy mw.fromAddress then 0 else 1 := rfl

lemma Handle_signCalls (env : Env) (mw : SignedEthTxMiddleware) (txData : List Nat) :
    (Handle env mw txData).signCalls =
      (handleCore env mw.signer mw.applyEthChainName (effectiveFromAddress mw) txData).2.1 := rfl

lemma Handle_recoverCalls (env : Env) (mw : SignedEthTxMiddleware) (txData : List Nat) :
    (Handle env mw txData).recoverCalls =
      (handleCore env mw.signer mw.applyEthChainName (effectiveFromAddress mw) txData).2.2 := rfl

/-- When all three layers decode, `getHashedValues` hashes exactly the
ordered typed 4-tuple of source lines 42–59. -/
lemma getHashedValues_spec (env : Env) (fromAddress : String) (txData : List Nat)
    (nonce : NonceTx) (transaction : Transaction) (message : MessageTx) (pb : AddressPB)
    (h1 : env.NonceTx_deserializeBinary txData = some nonce)
    (h2 : env.Transaction_deserializeBinary nonce.inner = some transaction)
    (h3 : env.MessageTx_deserializeBinary transaction.data = some message)
    (h4 : message.getTo = some pb) :
    getHashedValues env fromAddress txData =
      .ok (env.soliditySha3
        [ ⟨"address", fromAddress⟩,
          ⟨"address", (Address.UnmarshalPB pb).localAddr.toString⟩,
          ⟨"uint64", toString nonce.sequence⟩,
          ⟨"bytes", bytesToHex txData⟩ ]) := by
  unfold getHashedValues
  simp only [h1, h2, h3, h4]

/-- The only error `getHashedValues` produces is `DecodeError`. -/
lemma getHashedValues_error_eq (env : Env) (fa : String) (txData : List Nat)
    (e : HandleError) (h : getHashedValues env fa txData = .error e) :
    e = HandleError.DecodeError := by
  unfold getHashedValues at h
  split at h
  · simp at h; exact h.symm
  · split at h
    · simp at h; exact h.symm
    · split at h
      · simp at h; exact h.symm
      · split at h
        · simp at h; exact h.symm
        · simp at h

/-- Inversion of a successful `handleCore` run: the digest is the raw
structured hash, the signature is what `sign` returned on it, the public
key was recovered from the message-prefixed re-hash and the signature
with its first byte dropped, and the output fields are as built on
source lines 93–100. -/
lemma handleCore_ok (env : Env) (signer : Signer) (flag : Bool)
    (fa : String) (txData : List Nat) (tx : SignedTx)
    (h : (handleCore env signer flag fa txData).1 = .ok tx) :
    ∃ hash sig publicKey,
      getHashedValues env fa txData = .ok hash ∧
      signer.sign hash = .ok sig ∧
      env.recoverPublicKey (arrayify (env.hashMessage (arrayify hash)))
        ("0x" ++ bytesToHex (List.drop 1 sig)) = .ok publicKey ∧
      tx = ⟨txData, sig, hexToBytes publicKey, if flag then "eth" else ""⟩ := by
  unfold handleCore at h
  split at h
  · simp at h
  · rename_i hash heq
    split at h
    · simp at h
    · rename_i sig heq2
      split at h
      · simp at h
      · rename_i publicKey heq3
        simp only [Except.ok.injEq] at h
        exact ⟨hash, sig, publicKey, heq, heq2, heq3, h.symm⟩

/-!  Claim theorems. -/

/-- C1: for every input envelope that decodes through all three layers,
the canonical hash input built before hashing is exactly the ordered
4-tuple [(address, cached sender address), (address, destination
address), (uint64, sequence as decimal text), (bytes, hex of the
original unmodified envelope bytes)], in that order, with those type
tags. -/
theorem hash_input_tuple_order (env : Env) (mw : SignedEthTxMiddleware)
    (txData : List Nat) (nonce : NonceTx) (transaction : Transaction)
    (message : MessageTx) (pb : AddressPB)
    (h1 : env.NonceTx_deserializeBinary txData = some nonce)
    (h2 : env.Transaction_deserializeBinary nonce.inner = some transaction)
    (h3 : env.MessageTx_deserializeBinary transaction.data = some message)
    (h4 : message.getTo = some pb) :
    getHashedValues env (effectiveFromAddress mw) txData =
      .ok (env.soliditySha3
        [ ⟨"address", effectiveFromAddress mw⟩,
          ⟨"address", (Address.UnmarshalPB pb).localAddr.toString⟩,
          ⟨"uint64", toString nonce.sequence⟩,
          ⟨"bytes", bytesToHex txData⟩ ]) :=
  getHashedValues_spec env (effectiveFromAddress mw) txData nonce transaction message pb h1 h2 h3 h4

theorem hash_input_tuple_order_witness :
    env0.NonceTx_deserializeBinary [0] = some nonce0 ∧
    env0.Transaction_deserializeBinary nonce0.inner = some transaction0 ∧
    env0.MessageTx_deserializeBinary transaction0.data = some message0 ∧
    message0.getTo = some pb0 ∧
    getHashedValues env0 (effectiveFromAddress (mkMiddleware signer0 false)) [0] =
      .ok (env0.soliditySha3
        [ ⟨"address", effectiveFromAddress (mkMiddleware signer0 false)⟩,
          ⟨"address", (Address.UnmarshalPB pb0).localAddr.toString⟩,
          ⟨"uint64", toString nonce0.sequence⟩,
          ⟨"bytes", bytesToHex [0]⟩ ]) :=
  ⟨rfl, rfl, rfl, rfl,
    hash_input_tuple_order env0 (mkMiddleware signer0 false) [0]
      nonce0 transaction0 message0 pb0 rfl rfl rfl rfl⟩

/-- C2: for every call of `Handle` that succeeds, the `inner` field of
the returned signed envelope is byte-identical to the input envelope
bytes. -/
theorem signed_envelope_inner_preserved (env : Env) (mw : SignedEthTxMiddleware)
    (txData : List Nat) (tx : SignedTx)
    (h : (Handle env mw txData).result = .ok tx) :
    tx.inner = txData := by
  rw [Handle_result] at h
  obtain ⟨hash, sig, publicKey, _, _, _, htx⟩ :=
    handleCore_ok env mw.signer mw.applyEthChainName (effectiveFromAddress mw) txData tx h
  rw [htx]

theorem signed_envelope_inner_preserved_witness :
    (Handle env0 (mkMiddleware signer0 false) [0]).result =
      .ok ⟨[0], [27, 1, 2], [4], ""⟩ ∧
    SignedTx.inner ⟨[0], [27, 1, 2], [4], ""⟩ = [0] :=
  ⟨by decide,
    signed_envelope_inner_preserved env0 (mkMiddleware signer0 false) [0]
      ⟨[0], [27, 1, 2], [4], ""⟩ (by decide)⟩

/-- C3: on every successful call the digest passed to `sign` is the raw
structured hash; recovery runs over the personal-message-prefixed
re-hash of that digest and the signature with its leading recovery-id
byte dropped; yet the output embeds the full signature (recovery byte
included) and the recovered public key. -/
theorem sign_raw_digest_recover_prefixed (env : Env) (mw : SignedEthTxMiddleware)
    (txData : List Nat) (tx : SignedTx)
    (h : (Handle env mw txData).result = .ok tx) :
    ∃ hash sig publicKey,
      getHashedValues env (effectiveFromAddress mw) txData = .ok hash ∧
      mw.signer.sign hash = .ok sig ∧
      env.recoverPublicKey (arrayify (env.hashMessage (arrayify hash)))
        ("0x" ++ bytesToHex (List.drop 1 sig)) = .ok publicKey ∧
      tx.signature = sig ∧
      tx.publicKey = hexToBytes publicKey := by
  rw [Handle_result] at h
  obtain ⟨hash, sig, publicKey, hg, hs, hr, htx⟩ :=
    handleCore_ok env mw.signer mw.applyEthChainName (effectiveFromAddress mw) txData tx h
  exact ⟨hash, sig, publicKey, hg, hs, hr, by rw [htx], by rw [htx]⟩

theorem sign_raw_digest_recover_prefixed_witness :
    (Handle env0 (mkMiddleware signer0 false) [0]).result =
      .ok ⟨[0], [27, 1, 2], [4], ""⟩ ∧
    ∃ hash sig publicKey,
      getHashedValues env0 (effectiveFromAddress (mkMiddleware signer0 false)) [0] = .ok hash ∧
      signer0.sign hash = .ok sig ∧
      env0.recoverPublicKey (arrayify (env0.hashMessage (arrayify hash)))
        ("0x" ++ bytesToHex (List.drop 1 sig)) = .ok publicKey ∧
      SignedTx.signature ⟨[0], [27, 1, 2], [4], ""⟩ = sig ∧
      SignedTx.publicKey ⟨[0], [27, 1, 2], [4], ""⟩ = hexToBytes publicKey :=
  ⟨by decide,
    sign_raw_digest_recover_prefixed env0 (mkMiddleware signer0 false) [0]
      ⟨[0], [27, 1, 2], [4], ""⟩ (by decide)⟩

/-- C4: when the input envelope fails to decode at any of the three
layers, the call fails with a `DecodeError`, no partial output is
produced, and the signer's `sign` (and `recoverPublicKey`) are never
invoked. -/
theorem decode_failure_no_sign (env : Env) (mw : SignedEthTxMiddleware)
    (txData : List Nat) (e : HandleError)
    (h : getHashedValues env (effectiveFromAddress mw) txData = .error e) :
    (Handle env mw txData).result = .error .DecodeError ∧
    (Handle env mw txData).signCalls = 0 ∧
    (Handle env mw txData).recoverCalls = 0 := by
  have he := getHashedValues_error_eq env (effectiveFromAddress mw) txData e h
  subst he
  refine ⟨?_, ?_, ?_⟩
  · rw [Handle_result]; unfold handleCore; rw [h]
  · rw [Handle_signCalls]; unfold handleCore; rw [h]
  · rw [Handle_recoverCalls]; unfold handleCore; rw [h]

theorem decode_failure_no_sign_witness :
    getHashedValues env0 (effectiveFromAddress (mkMiddleware signer0 false)) [9] =
      .error HandleError.DecodeError ∧
    ((Handle env0 (mkMiddleware signer0 false) [9]).result = .error .DecodeError ∧
     (Handle env0 (mkMiddleware signer0 false) [9]).signCalls = 0 ∧
     (Handle env0 (mkMiddleware signer0 false) [9]).recoverCalls = 0) :=
  ⟨by decide,
    decode_failure_no_sign env0 (mkMiddleware signer0 false) [9]
      HandleError.DecodeError (by decide)⟩

/-!  Lemmas about sequences of `Handle` calls. -/

lemma HandleSeq_nil (env : Env) (mw : SignedEthTxMiddleware) :
    HandleSeq env mw [] = (mw, 0) := rfl

lemma HandleSeq_cons (env : Env) (mw : SignedEthTxMiddleware)
    (txData : List Nat) (rest : List (List Nat)) :
    HandleSeq env mw (txData :: rest) =
      ((HandleSeq env (Handle env mw txData).state rest).1,
       (Handle env mw txData).getAddressCalls +
         (HandleSeq env (Handle env mw txData).state rest).2) := rfl

/-- Once the cached sender address is truthy, a sequence of `Handle`
calls never touches `getAddress` again and never changes the state. -/
lemma HandleSeq_truthy (env : Env) (inputs : List (List Nat)) :
    ∀ mw : SignedEthTxMiddleware, truthy mw.fromAddress = true →
      HandleSeq env mw inputs = (mw, 0) := by
  induction inputs with
  | nil => intro mw _; rfl
  | cons t ts ih =>
    intro mw h
    rw [HandleSeq_cons, Handle_state, Handle_getAddressCalls, if_pos h, if_pos h,
      ih mw h]
    rfl

/-- C5 (amended): across any sequence of sequential `Handle` calls on a
fresh builder instance, provided the signer's address is non-empty
(truthy), `getAddress` is invoked at most once; the address is cached on
the instance after the first call; and the cached field is the only
state the calls mutate (signer and flag are untouched). -/
theorem sender_address_fetched_at_most_once (env : Env) (signer : Signer)
    (flag : Bool) (inputs : List (List Nat))
    (h : signer.getAddress ≠ "") :
    (HandleSeq env (mkMiddleware signer flag) inputs).2 ≤ 1 ∧
    (HandleSeq env (mkMiddleware signer flag) inputs).1.signer = signer ∧
    (HandleSeq env (mkMiddleware signer flag) inputs).1.applyEthChainName = flag ∧
    (inputs ≠ [] →
      (HandleSeq env (mkMiddleware signer flag) inputs).1.fromAddress =
        some signer.getAddress) := by
  cases inputs with
  | nil => exact ⟨by simp [HandleSeq_nil], rfl, rfl, by simp⟩
  | cons t ts =>
    have hstate : (Handle env (mkMiddleware signer flag) t).state =
        ⟨signer, some signer.getAddress, flag⟩ := by
      rw [Handle_state]; rfl
    have htr : truthy (SignedEthTxMiddleware.mk signer (some signer.getAddress) flag).fromAddress = true := by
      simp [truthy, h]
    rw [HandleSeq_cons, hstate, HandleSeq_truthy env ts _ htr]
    refine ⟨?_, rfl, rfl, fun _ => rfl⟩
    rw [Handle_getAddressCalls]
    simp [mkMiddleware, truthy]

theorem sender_address_fetched_at_most_once_witness :
    Signer.getAddress signer0 ≠ "" ∧
    ((HandleSeq env0 (mkMiddleware signer0 false) [[0], [0]]).2 ≤ 1 ∧
     (HandleSeq env0 (mkMiddleware signer0 false) [[0], [0]]).1.signer = signer0 ∧
     (HandleSeq env0 (mkMiddleware signer0 false) [[0], [0]]).1.applyEthChainName = false ∧
     ([[0], [0]] ≠ ([] : List (List Nat)) →
       (HandleSeq env0 (mkMiddleware signer0 false) [[0], [0]]).1.fromAddress =
         some (Signer.getAddress signer0))) :=
  ⟨by decide,
    sender_address_fetched_at_most_once env0 signer0 false [[0], [0]] (by decide)⟩

/-- C5 (counterexample): with a signer whose `getAddress` resolves to
the empty string, two sequential `Handle` calls on the same fresh
builder invoke `getAddress` twice, so the claim "invoked at most once
across N sequential calls" fails as stated. -/
theorem sender_address_fetch_twice_counterexample :
    (HandleSeq env0 (mkMiddleware signerE false) [[9], [9]]).2 = 2 ∧
    ¬ (HandleSeq env0 (mkMiddleware signerE false) [[9], [9]]).2 ≤ 1 := by
  decide

/-- Helper for C9: while the signer's address is empty and the cache is
falsy, every call refetches the address and leaves the cache falsy. -/
lemma HandleSeq_empty_address (env : Env) (inputs : List (List Nat)) :
    ∀ mw : SignedEthTxMiddleware, mw.signer.getAddress = "" →
      truthy mw.fromAddress = false →
      (HandleSeq env mw inputs).2 = inputs.length := by
  induction inputs with
  | nil => intro mw _ _; rfl
  | cons t ts ih =>
    intro mw h hf
    have hstate : (Handle env mw t).state = { mw with fromAddress := some "" } := by
      rw [Handle_state, if_neg (by rw [hf]; exact Bool.false_ne_true), h]
    rw [HandleSeq_cons, Handle_getAddressCalls, if_neg (by rw [hf]; exact Bool.false_ne_true),
      hstate, ih { mw with fromAddress := some "" } h (by simp [truthy])]
    simp [List.length_cons, Nat.add_comm]

/-- C9: if the signer's `getAddress` resolves to the empty string, the
truthiness-based cache guard treats the cache as unpopulated, so the
address fetch is re-invoked on every `Handle` call: across a sequence of
calls on a fresh builder it is invoked once per call. -/
theorem empty_address_defeats_cache (env : Env) (signer : Signer)
    (flag : Bool) (inputs : List (List Nat))
    (h : signer.getAddress = "") :
    (HandleSeq env (mkMiddleware signer flag) inputs).2 = inputs.length :=
  HandleSeq_empty_address env inputs (mkMiddleware signer flag) h rfl

theorem empty_address_defeats_cache_witness :
    Signer.getAddress signerE = "" ∧
    (HandleSeq env0 (mkMiddleware signerE false) [[9], [9], [9]]).2 =
      List.length [[9], [9], [9]] :=
  ⟨rfl, empty_address_defeats_cache env0 signerE false [[9], [9], [9]] rfl⟩

/-- C10 (amended): on a call whose cache is falsy, the sender address is
written to the cache; the written state does not depend on the
environment or the input at all (so the write precedes and survives any
decode/sign/recovery failure and is never rolled back); and provided the
resolved address is non-empty, any later call fetches nothing. -/
theorem cache_write_before_decode (env : Env) (mw : SignedEthTxMiddleware)
    (txData : List Nat) (h : truthy mw.fromAddress = false) :
    (Handle env mw txData).state.fromAddress = some mw.signer.getAddress ∧
    (∀ env' : Env, ∀ txData' : List Nat,
      (Handle env' mw txData').state = (Handle env mw txData).state) ∧
    (mw.signer.getAddress ≠ "" →
      ∀ env' : Env, ∀ txData' : List Nat,
        (Handle env' (Handle env mw txData).state txData').getAddressCalls = 0) := by
  have hneg : ¬ truthy mw.fromAddress = true := by rw [h]; exact Bool.false_ne_true
  refine ⟨?_, ?_, ?_⟩
  · rw [Handle_state, if_neg hneg]
  · intro env' txData'
    rw [Handle_state, Handle_state]
  · intro hne env' txData'
    rw [Handle_getAddressCalls, Handle_state, if_neg hneg, if_pos]
    simp [truthy, hne]

theorem cache_write_before_decode_witness :
    truthy (mkMiddleware signer0 false).fromAddress = false ∧
    ((Handle env0 (mkMiddleware signer0 false) [9]).state.fromAddress =
       some (Signer.getAddress signer0) ∧
     (∀ env' : Env, ∀ txData' : List Nat,
       (Handle env' (mkMiddleware signer0 false) txData').state =
         (Handle env0 (mkMiddleware signer0 false) [9]).state) ∧
     (Signer.getAddress signer0 ≠ "" →
       ∀ env' : Env, ∀ txData' : List Nat,
         (Handle env' (Handle env0 (mkMiddleware signer0 false) [9]).state txData').getAddressCalls = 0)) :=
  ⟨rfl, cache_write_before_decode env0 (mkMiddleware signer0 false) [9] rfl⟩

/-- C10 (counterexample): with a signer resolving to the empty string,
the first call fails with a decode error and the written cache is
treated as unpopulated, so the next call fetches the address again —
"later calls do not fetch it again" fails as stated. -/
theorem cache_write_empty_refetch_counterexample :
    (Handle env0 (mkMiddleware signerE false) [9]).result = .error .DecodeError ∧
    (Handle env0 (mkMiddleware signerE false) [9]).state.fromAddress = some "" ∧
    (Handle env0 (Handle env0 (mkMiddleware signerE false) [9]).state [9]).getAddressCalls = 1 := by
  decide

/-- C6: on success, `applyEthChainName = false` leaves the chain tag
unset (proto3 default `""`), and `applyEthChainName = true` with the
same signer, cache, environment and input yields the same envelope
except that the chain tag is the fixed literal `"eth"`. -/
theorem chain_tag_gating (env : Env) (mw : SignedEthTxMiddleware)
    (txData : List Nat) (tx : SignedTx)
    (h : (Handle env { mw with applyEthChainName := false } txData).result = .ok tx) :
    tx.chainName = "" ∧
    (Handle env { mw with applyEthChainName := true } txData).result =
      .ok { tx with chainName := "eth" } := by
  replace h : (handleCore env mw.signer false (effectiveFromAddress mw) txData).1 = .ok tx := h
  obtain ⟨hash, sig, publicKey, hg, hs, hr, htx⟩ :=
    handleCore_ok env mw.signer false (effectiveFromAddress mw) txData tx h
  subst htx
  refine ⟨rfl, ?_⟩
  show (handleCore env mw.signer true (effectiveFromAddress mw) txData).1 = _
  unfold handleCore
  rw [List.drop_one] at hr
  simp [hg, hs, hr]

theorem chain_tag_gating_witness :
    (Handle env0 { mkMiddleware signer0 true with applyEthChainName := false } [0]).result =
      .ok ⟨[0], [27, 1, 2], [4], ""⟩ ∧
    (SignedTx.chainName ⟨[0], [27, 1, 2], [4], ""⟩ = "" ∧
     (Handle env0 { mkMiddleware signer0 true with applyEthChainName := true } [0]).result =
       .ok { SignedTx.mk [0] [27, 1, 2] [4] "" with chainName := "eth" }) :=
  ⟨by decide,
    chain_tag_gating env0 (mkMiddleware signer0 true) [0]
      ⟨[0], [27, 1, 2], [4], ""⟩ (by decide)⟩

/-- C7: each of the three failure modes is terminal and surfaces to the
caller as its own distinguishable error: a decode failure yields
`DecodeError` with the signer never invoked, a signer failure yields
`SigningError`, a recovery failure yields `RecoveryError`; and no step
is ever retried — every capability is invoked at most once per call. -/
theorem errors_terminal_distinguishable (env : Env)
    (mw : SignedEthTxMiddleware) (txData : List Nat) :
    (Handle env mw txData).getAddressCalls ≤ 1 ∧
    (Handle env mw txData).signCalls ≤ 1 ∧
    (Handle env mw txData).recoverCalls ≤ 1 ∧
    (∀ e, getHashedValues env (effectiveFromAddress mw) txData = .error e →
      (Handle env mw txData).result = .error .DecodeError ∧
      (Handle env mw txData).signCalls = 0) ∧
    (∀ hash, getHashedValues env (effectiveFromAddress mw) txData = .ok hash →
      mw.signer.sign hash = .error () →
      (Handle env mw txData).result = .error .SigningError) ∧
    (∀ hash sig, getHashedValues env (effectiveFromAddress mw) txData = .ok hash →
      mw.signer.sign hash = .ok sig →
      env.recoverPublicKey (arrayify (env.hashMessage (arrayify hash)))
        ("0x" ++ bytesToHex (List.drop 1 sig)) = .error () →
      (Handle env mw txData).result = .error .RecoveryError) := by
  refine ⟨?_, ?_, ?_, ?_, ?_, ?_⟩
  · rw [Handle_getAddressCalls]; split <;> simp
  · rw [Handle_signCalls]; unfold handleCore
    split
    · simp
    · split
      · simp
      · split <;> simp
  · rw [Handle_recoverCalls]; unfold handleCore
    split
    · simp
    · split
      · simp
      · split <;> simp
  · intro e he
    have h0 := getHashedValues_error_eq env (effectiveFromAddress mw) txData e he
    subst h0
    constructor
    · rw [Handle_result]; unfold handleCore; rw [he]
    · rw [Handle_signCalls]; unfold handleCore; rw [he]
  · intro hash hg hs
    rw [Handle_result]; unfold handleCore
    simp only [hg, hs]
  · intro hash sig hg hs hr
    rw [Handle_result]; unfold handleCore
    simp only [hg, hs, hr]

theorem errors_terminal_distinguishable_witness :
    (Handle env0 (mkMiddleware signer0 false) [9]).result = .error .DecodeError ∧
    (Handle env0 (mkMiddleware signer0 false) [9]).signCalls = 0 :=
  (errors_terminal_distinguishable env0 (mkMiddleware signer0 false) [9]).2.2.2.1
    HandleError.DecodeError (by decide)

lemma replicate_marker_inj : ∀ {n m : Nat} {x y : List Char},
    List.replicate n 'a' ++ 'b' :: x = List.replicate m 'a' ++ 'b' :: y →
    n = m ∧ x = y := by
  intro n
  induction n with
  | zero =>
    intro m x y h
    cases m with
    | zero => simpa using h
    | succ m =>
      rw [List.replicate_succ, List.cons_append, List.replicate_zero,
        List.nil_append] at h
      injection h with h1 _
      exact absurd h1 (by decide)
  | succ n ih =>
    intro m x y h
    cases m with
    | zero =>
      rw [List.replicate_succ, List.cons_append, List.replicate_zero,
        List.nil_append] at h
      injection h with h1 _
      exact absurd h1 (by decide)
    | succ m =>
      rw [List.replicate_succ, List.replicate_succ, List.cons_append,
        List.cons_append] at h
      injection h with _ h2
      obtain ⟨hn, hxy⟩ := ih h2
      exact ⟨by rw [hn], hxy⟩

lemma encStr_append_inj {s1 s2 : String} {r1 r2 : List Char}
    (h : encStr s1 ++ r1 = encStr s2 ++ r2) : s1 = s2 ∧ r1 = r2 := by
  unfold encStr at h
  rw [List.append_assoc, List.append_assoc, List.cons_append, List.cons_append] at h
  obtain ⟨hlen, hdata⟩ := replicate_marker_inj h
  have hl : s1.data.length = s2.data.length := hlen
  obtain ⟨hd, hr⟩ := List.append_inj hdata hl
  refine ⟨?_, hr⟩
  cases s1; cases s2; exact congrArg String.mk hd

lemma encHV_append_inj {a b : HashValue} {r1 r2 : List Char}
    (h : encHV a ++ r1 = encHV b ++ r2) : a = b ∧ r1 = r2 := by
  unfold encHV at h
  rw [List.append_assoc, List.append_assoc] at h
  obtain ⟨h1, h2⟩ := encStr_append_inj h
  obtain ⟨h3, h4⟩ := encStr_append_inj h2
  refine ⟨?_, h4⟩
  cases a; cases b; simp_all

lemma encList_injEq : ∀ {l1 l2 : List HashValue},
    encList l1 = encList l2 → l1 = l2 := by
  intro l1
  induction l1 with
  | nil =>
    intro l2 h
    cases l2 with
    | nil => rfl
    | cons b t =>
      exfalso
      simp only [encList, encHV, encStr] at h
      exact absurd h.symm (by simp)
  | cons a t ih =>
    intro l2 h
    cases l2 with
    | nil =>
      exfalso
      simp only [encList, encHV, encStr] at h
      exact absurd h (by simp)
    | cons b t2 =>
      simp only [encList] at h
      obtain ⟨hab, ht⟩ := encHV_append_inj h
      rw [hab, ih ht]

lemma solidityEnc_injective : Function.Injective solidityEnc := by
  intro l1 l2 h
  unfold solidityEnc at h
  injection h with h
  exact encList_injEq h

/-- C8: for every decodable envelope, if the sender and destination
addresses differ then — for any collision-free instantiation of the
external structured hash — swapping the sender/destination elements of
the hash tuple changes the resulting digest. -/
theorem swap_addresses_changes_digest (env : Env) (mw : SignedEthTxMiddleware)
    (txData : List Nat) (nonce : NonceTx) (transaction : Transaction)
    (message : MessageTx) (pb : AddressPB)
    (h1 : env.NonceTx_deserializeBinary txData = some nonce)
    (h2 : env.Transaction_deserializeBinary nonce.inner = some transaction)
    (h3 : env.MessageTx_deserializeBinary transaction.data = some message)
    (h4 : message.getTo = some pb)
    (hinj : Function.Injective env.soliditySha3)
    (hne : effectiveFromAddress mw ≠ (Address.UnmarshalPB pb).localAddr.toString) :
    getHashedValues env (effectiveFromAddress mw) txData =
      .ok (env.soliditySha3
        [ ⟨"address", effectiveFromAddress mw⟩,
          ⟨"address", (Address.UnmarshalPB pb).localAddr.toString⟩,
          ⟨"uint64", toString nonce.sequence⟩,
          ⟨"bytes", bytesToHex txData⟩ ]) ∧
    env.soliditySha3
        [ ⟨"address", (Address.UnmarshalPB pb).localAddr.toString⟩,
          ⟨"address", effectiveFromAddress mw⟩,
          ⟨"uint64", toString nonce.sequence⟩,
          ⟨"bytes", bytesToHex txData⟩ ] ≠
      env.soliditySha3
        [ ⟨"address", effectiveFromAddress mw⟩,
          ⟨"address", (Address.UnmarshalPB pb).localAddr.toString⟩,
          ⟨"uint64", toString nonce.sequence⟩,
          ⟨"bytes", bytesToHex txData⟩ ] := by
  refine ⟨getHashedValues_spec env (effectiveFromAddress mw) txData
    nonce transaction message pb h1 h2 h3 h4, ?_⟩
  intro hcontra
  have heq := hinj hcontra
  simp only [List.cons.injEq, HashValue.mk.injEq] at heq
  exact hne heq.1.2.symm

theorem swap_addresses_changes_digest_witness :
    envInj.NonceTx_deserializeBinary [0] = some nonce0 ∧
    envInj.Transaction_deserializeBinary nonce0.inner = some transaction0 ∧
    envInj.MessageTx_deserializeBinary transaction0.data = some message0 ∧
    message0.getTo = some pb0 ∧
    effectiveFromAddress (mkMiddleware signer0 false) ≠
      (Address.UnmarshalPB pb0).localAddr.toString ∧
    (getHashedValues envInj (effectiveFromAddress (mkMiddleware signer0 false)) [0] =
      .ok (envInj.soliditySha3
        [ ⟨"address", effectiveFromAddress (mkMiddleware signer0 false)⟩,
          ⟨"address", (Address.UnmarshalPB pb0).localAddr.toString⟩,
          ⟨"uint64", toString nonce0.sequence⟩,
          ⟨"bytes", bytesToHex [0]⟩ ]) ∧
    envInj.soliditySha3
        [ ⟨"address", (Address.UnmarshalPB pb0).localAddr.toString⟩,
          ⟨"address", effectiveFromAddress (mkMiddleware signer0 false)⟩,
          ⟨"uint64", toString nonce0.sequence⟩,
          ⟨"bytes", bytesToHex [0]⟩ ] ≠
      envInj.soliditySha3
        [ ⟨"address", effectiveFromAddress (mkMiddleware signer0 false)⟩,
          ⟨"address", (Address.UnmarshalPB pb0).localAddr.toString⟩,
          ⟨"uint64", toString nonce0.sequence⟩,
          ⟨"bytes", bytesToHex [0]⟩ ]) :=
  ⟨rfl, rfl, rfl, rfl, by decide,
    swap_addresses_changes_digest envInj (mkMiddleware signer0 false) [0]
      nonce0 transaction0 message0 pb0 rfl rfl rfl rfl
      solidityEnc_injective (by decide)⟩

end Loom
